import Mathlib

/-!
Verification of the key-auth backend (`src/api/auth.js`).

The file shallowly embeds the data model and the operations of the backend:
the permission resolver (`checkIfAdmin`, `checkAppPermission`), the key
lifecycle operations (`create_key`, `ban_key`, `reset_hwid`) and the device
binding validator (`validate_key`), together with the support-grant
operations (`add_support`, `delete_support`).  Database rows become Lean
structures, SQL updates become functions on those structures, and the
JavaScript truthiness idioms (`x || 1`, `x || null`) are modelled
explicitly.  Timestamps are integers; machine-level concerns play no role
in the verified properties.
-/

namespace KeyAuth

/-- The fixed super-admin user id, `MAIN_ADMIN_ID` in `src/api/auth.js`. -/
def MAIN_ADMIN_ID : String := "techdavisk007"

/-- `checkIfAdmin` from `src/api/auth.js` (line 108): a user is admin iff the
user id equals the fixed super-admin id. -/
def checkIfAdmin (user_id : String) : Bool :=
  user_id == MAIN_ADMIN_ID

/-- A row of the `applications` table, restricted to the columns the
permission resolver consults. -/
structure Application where
  name : String
  api_key : String
  created_by : String
deriving DecidableEq

/-- The record returned by `checkAppPermission`. -/
structure PermResult where
  hasPermission : Bool
  isAdmin : Bool
deriving DecidableEq

/-- `checkAppPermission` from `src/api/auth.js` (lines 120-131).  The
`supports` table is modelled by the list of its `user_id` column values and
the `applications` table by a list of `Application` rows; the two SQL
`SELECT` queries become a membership test and an existence test. -/
def checkAppPermission (supports : List String) (apps : List Application)
    (user_id api_key : String) : PermResult :=
  if checkIfAdmin user_id then ⟨true, true⟩
  else if user_id ∈ supports then ⟨true, false⟩
  else ⟨apps.any (fun a => a.api_key == api_key && a.created_by == user_id), false⟩

/-- A row of the `keys` table, restricted to the columns the key lifecycle
and the validator touch.  `hwid` is the bound-HWID set: `none` models the
SQL `NULL`, `some l` models the column holding the JSON serialization of
the array `l` (the serialized form itself is studied separately below). -/
structure KeyRow where
  banned : Bool
  expires_at : Int
  hwid : Option (List String)
  used : Bool
  device_limit : Int
  system_info : Option String
  first_used : Option Int
deriving DecidableEq

/-- Model of the JavaScript expression `parseInt(device_limit) || 1` in the
`create_key` handler (line 223).  `none` stands for `parseInt` returning
`NaN` (field absent or unparseable); `0` is falsy in JavaScript, so it is
replaced by `1`, while every other integer — negative ones included — is
kept as is. -/
def parseIntOr1 (v : Option Int) : Int :=
  match v with
  | none => 1
  | some n => if n = 0 then 1 else n

/-- A key row exactly as the `INSERT` of `create_key` (lines 224-227) and
the table defaults (lines 51-67) produce it: not banned, not used, no bound
HWIDs, no system info, no first-used timestamp. -/
def freshKeyRow (expires_at device_limit : Int) : KeyRow :=
  ⟨false, expires_at, none, false, device_limit, none, none⟩

/-- The key row stored by the `create_key` handler (lines 216-228) for a
given expiration timestamp and raw `device_limit` field. -/
def createKeyRow (expires_at : Int) (device_limit : Option Int) : KeyRow :=
  freshKeyRow expires_at (parseIntOr1 device_limit)

/-- Outcome of the per-key part of the `validate_key` handler, one
constructor per response message. -/
inductive VResult where
  | keyBanned
  | keyExpired
  | deviceLimitReached
  | valid
deriving DecidableEq

/-- The per-key decision sequence of the `validate_key` handler
(lines 349-362), paired with the row state it leaves behind.  `now` is the
current timestamp, `hw` the client HWID and `sys` the `system_info || null`
value of the request (`none` when the field is absent or falsy).  The SQL
`UPDATE` of lines 357-361 becomes a record update: the HWID is appended,
`used` set, `system_info` overwritten with `sys`, and `first_used` given
`COALESCE(first_used, CURRENT_TIMESTAMP)` semantics. -/
def validateKey (now : Int) (hw : String) (sys : Option String) (k : KeyRow) :
    VResult × KeyRow :=
  if k.banned then (.keyBanned, k)
  else if now > k.expires_at then (.keyExpired, k)
  else
    let hwids := k.hwid.getD []
    if hw ∈ hwids then (.valid, k)
    else
      let limit : Int := if k.device_limit = 0 then 1 else k.device_limit
      if (hwids.length : Int) ≥ limit then (.deviceLimitReached, k)
      else (.valid, { k with
        hwid := some (hwids ++ [hw]),
        used := true,
        system_info := sys,
        first_used := some (k.first_used.getD now) })

/-- The row effect of the `ban_key` handler (line 245):
`UPDATE keys SET banned = true`. -/
def banKeyRow (k : KeyRow) : KeyRow :=
  { k with banned := true }

/-- The row effect of the `reset_hwid` handler (lines 265-268):
`UPDATE keys SET hwid = NULL, used = false, system_info = NULL,
first_used = NULL`.  Note that `banned` is not touched. -/
def resetHwidRow (k : KeyRow) : KeyRow :=
  { k with hwid := none, used := false, system_info := none, first_used := none }

/-- The operations that can hit an existing key row. -/
inductive KeyOp where
  | validate (now : Int) (hw : String) (sys : Option String)
  | ban
  | reset

/-- One step of the key lifecycle: the row after one operation. -/
def keyStep (k : KeyRow) : KeyOp → KeyRow
  | .validate now hw sys => (validateKey now hw sys k).2
  | .ban => banKeyRow k
  | .reset => resetHwidRow k

/-- Number of bound HWIDs of a row. -/
def hwidCount (k : KeyRow) : Nat :=
  (k.hwid.getD []).length

/-- Reachability invariant of a key row: the stored device limit is never
`0` (creation maps `0` and `NaN` to `1`), and the number of bound HWIDs
never exceeds `max device_limit 0`. -/
def KeyRowInv (k : KeyRow) : Prop :=
  k.device_limit ≠ 0 ∧ (hwidCount k : Int) ≤ max k.device_limit 0

/-- Outcome of the `add_support` handler. -/
inductive SupportAddResult where
  | onlyAdminCanAdd
  | alreadySupport
  | added
deriving DecidableEq

/-- The `add_support` handler (lines 313-326).  The `supports` table is the
list of its `user_id` values; the SQL unique-constraint violation
(`e.code === '23505'`) becomes a membership test. -/
def add_support (supports : List String) (user_id admin_id : String) :
    SupportAddResult × List String :=
  if ¬ checkIfAdmin admin_id then (.onlyAdminCanAdd, supports)
  else if user_id ∈ supports then (.alreadySupport, supports)
  else (.added, supports ++ [user_id])

/-- Outcome of the `delete_support` handler. -/
inductive SupportDelResult where
  | onlyAdminCanDelete
  | cannotDeleteMainAdmin
  | deleted
  | notFound
deriving DecidableEq

/-- The `delete_support` handler (lines 328-336): only an admin may delete,
the super-admin id is explicitly protected, and otherwise the SQL
`DELETE ... WHERE user_id = $1 RETURNING *` removes the matching entries
and reports `notFound` when none matched. -/
def delete_support (supports : List String) (user_id admin_id : String) :
    SupportDelResult × List String :=
  if ¬ checkIfAdmin admin_id then (.onlyAdminCanDelete, supports)
  else if user_id = MAIN_ADMIN_ID then (.cannotDeleteMainAdmin, supports)
  else if user_id ∈ supports then (.deleted, supports.filter (· ≠ user_id))
  else (.notFound, supports)

/-- The operations that mutate the `supports` table. -/
inductive SupportOp where
  | add (user_id admin_id : String)
  | del (user_id admin_id : String)

/-- One step of the supports table: the table after one operation. -/
def supportsStep (s : List String) : SupportOp → List String
  | .add uid adm => (add_support s uid adm).2
  | .del uid adm => (delete_support s uid adm).2

/-! ## Serialized hwid column

The `hwid` column is a TEXT column.  `validate_key` reads it through
`JSON.parse` (line 352) and writes it through `JSON.stringify` (line 360);
`reset_hwid` sets it to SQL `NULL`.  The following definitions model
`JSON.stringify` and `JSON.parse` specialized to arrays of strings — the
only shapes this program ever writes — and restate the validator on the
raw column. -/

/-- Lowercase hexadecimal digit character, as `JSON.stringify` emits in
`\u00xx` escapes. -/
def hexDigit (n : Nat) : Char :=
  if n < 10 then Char.ofNat (48 + n) else Char.ofNat (87 + n)

/-- Value of a hexadecimal digit character, either case. -/
def hexVal (c : Char) : Option Nat :=
  if 48 ≤ c.toNat ∧ c.toNat ≤ 57 then some (c.toNat - 48)
  else if 97 ≤ c.toNat ∧ c.toNat ≤ 102 then some (c.toNat - 87)
  else if 65 ≤ c.toNat ∧ c.toNat ≤ 70 then some (c.toNat - 55)
  else none

/-- Value of a four-digit hexadecimal escape body. -/
def decodeHex4 (h1 h2 h3 h4 : Char) : Option Nat :=
  match hexVal h1, hexVal h2, hexVal h3, hexVal h4 with
  | some a, some b, some v, some d => some (((a * 16 + b) * 16 + v) * 16 + d)
  | _, _, _, _ => none

/-- `JSON.stringify` escaping of one character inside a string literal:
quote and backslash get a backslash escape, the named control characters
get their short escapes, the remaining control characters get `\u00xx`,
everything else stands for itself. -/
def escChar (c : Char) : List Char :=
  if c = '"' then ['\\', '"']
  else if c = '\\' then ['\\', '\\']
  else if c = '\x08' then ['\\', 'b']
  else if c = '\t' then ['\\', 't']
  else if c = '\n' then ['\\', 'n']
  else if c = '\x0c' then ['\\', 'f']
  else if c = '\r' then ['\\', 'r']
  else if c.toNat < 32 then
    ['\\', 'u', '0', '0', hexDigit (c.toNat / 16), hexDigit (c.toNat % 16)]
  else [c]

/-- Escape a character sequence. -/
def escList : List Char → List Char
  | [] => []
  | c :: cs => escChar c ++ escList cs

/-- A JSON string literal: the escaped body between double quotes. -/
def quoteString (s : String) : List Char :=
  '"' :: (escList s.data ++ ['"'])

/-- The comma-separated string literals of a JSON array body. -/
def stringifyItems : List String → List Char
  | [] => []
  | [s] => quoteString s
  | s :: s2 :: rest => quoteString s ++ ',' :: stringifyItems (s2 :: rest)

/-- Model of `JSON.stringify` on an array of strings. -/
def stringifyArr (l : List String) : String :=
  String.mk ('[' :: (stringifyItems l ++ [']']))

/-- Model of JSON string-literal parsing after the opening quote: decodes
escapes up to the closing quote and returns the decoded characters with
the remaining input. -/
def parseJStr : List Char → Option (List Char × List Char)
  | [] => none
  | c :: rest =>
    if c = '"' then some ([], rest)
    else if c = '\\' then
      match rest with
      | [] => none
      | e :: rest2 =>
        if e = '"' then (parseJStr rest2).map fun p => ('"' :: p.1, p.2)
        else if e = '\\' then (parseJStr rest2).map fun p => ('\\' :: p.1, p.2)
        else if e = '/' then (parseJStr rest2).map fun p => ('/' :: p.1, p.2)
        else if e = 'b' then (parseJStr rest2).map fun p => ('\x08' :: p.1, p.2)
        else if e = 't' then (parseJStr rest2).map fun p => ('\t' :: p.1, p.2)
        else if e = 'n' then (parseJStr rest2).map fun p => ('\n' :: p.1, p.2)
        else if e = 'f' then (parseJStr rest2).map fun p => ('\x0c' :: p.1, p.2)
        else if e = 'r' then (parseJStr rest2).map fun p => ('\r' :: p.1, p.2)
        else if e = 'u' then
          match rest2 with
          | h1 :: h2 :: h3 :: h4 :: rest3 =>
            match decodeHex4 h1 h2 h3 h4 with
            | some n =>
              if n < 55296 then (parseJStr rest3).map fun p => (Char.ofNat n :: p.1, p.2)
              else none
            | none => none
          | _ => none
        else none
    else (parseJStr rest).map fun p => (c :: p.1, p.2)
termination_by structural l => l

/-- Model of JSON array-body parsing: `fuel`-bounded sequence of string
literals separated by commas, ending at the closing bracket.  The fuel
only ever makes the parser fail more; `parseArr` supplies enough of it for
every serializer output. -/
def parseItems : Nat → List Char → Option (List String × List Char)
  | 0, _ => none
  | fuel + 1, l =>
    match l with
    | [] => none
    | c :: rest =>
      if c = '"' then
        match parseJStr rest with
        | none => none
        | some (cs, rest2) =>
          match rest2 with
          | [] => none
          | d :: r =>
            if d = ']' then some ([String.mk cs], r)
            else if d = ',' then
              match parseItems fuel r with
              | none => none
              | some (p, r2) => some (String.mk cs :: p, r2)
            else none
      else none

/-- The body of a JSON array after the opening bracket. -/
def parseArrAux (rest : List Char) : Option (List String) :=
  if rest = [']'] then some []
  else
    match parseItems rest.length rest with
    | some (l, []) => some l
    | _ => none

/-- Model of `JSON.parse` specialized to arrays of strings: succeeds
exactly on a complete array literal, returning the decoded array. -/
def parseArr (s : String) : Option (List String) :=
  match s.data with
  | [] => none
  | c :: rest => if c = '[' then parseArrAux rest else none

/-- A row of the `keys` table with the `hwid` column in its raw stored
form: `none` is SQL `NULL`, `some s` the TEXT value. -/
structure KeyRowS where
  banned : Bool
  expires_at : Int
  hwid : Option String
  used : Bool
  device_limit : Int
  system_info : Option String
  first_used : Option Int
deriving DecidableEq

/-- The read `let hwids = vk_k.hwid ? JSON.parse(vk_k.hwid) : []` of
line 352: a falsy column (SQL `NULL` or the empty string) yields the empty
array without parsing; otherwise the column text is parsed, `none`
modelling a thrown `JSON.parse` exception. -/
def readHwids : Option String → Option (List String)
  | none => some []
  | some s => if s.data.isEmpty then some [] else parseArr s

/-- The per-key decision of `validate_key` on the raw row (lines 349-362).
The outer `none` models the exception path: a `JSON.parse` error aborts
the handler with a 500 response before any update runs. -/
def validateKeyS (now : Int) (hw : String) (sys : Option String) (k : KeyRowS) :
    Option (VResult × KeyRowS) :=
  if k.banned then some (.keyBanned, k)
  else if now > k.expires_at then some (.keyExpired, k)
  else
    match readHwids k.hwid with
    | none => none
    | some hwids =>
      if hw ∈ hwids then some (.valid, k)
      else
        let limit : Int := if k.device_limit = 0 then 1 else k.device_limit
        if (hwids.length : Int) ≥ limit then some (.deviceLimitReached, k)
        else some (.valid, { k with
          hwid := some (stringifyArr (hwids ++ [hw])),
          used := true,
          system_info := sys,
          first_used := some (k.first_used.getD now) })

/-- Raw-column version of `freshKeyRow`: the row `create_key` inserts. -/
def freshKeyRowS (expires_at device_limit : Int) : KeyRowS :=
  ⟨false, expires_at, none, false, device_limit, none, none⟩

/-- Raw-column version of `createKeyRow`. -/
def createKeyRowS (expires_at : Int) (device_limit : Option Int) : KeyRowS :=
  freshKeyRowS expires_at (parseIntOr1 device_limit)

/-- Raw-column version of `banKeyRow`. -/
def banKeyRowS (k : KeyRowS) : KeyRowS :=
  { k with banned := true }

/-- Raw-column version of `resetHwidRow`. -/
def resetHwidRowS (k : KeyRowS) : KeyRowS :=
  { k with hwid := none, used := false, system_info := none, first_used := none }

/-- One step of the key lifecycle on the raw row; on the exception path of
`validate_key` no update runs, so the row is unchanged. -/
def keyStepS (k : KeyRowS) : KeyOp → KeyRowS
  | .validate now hw sys =>
    match validateKeyS now hw sys k with
    | none => k
    | some p => p.2
  | .ban => banKeyRowS k
  | .reset => resetHwidRowS k

/-- Well-formedness of the raw `hwid` column: SQL `NULL` or the
`JSON.stringify` image of some array of strings. -/
def HwidColWF (k : KeyRowS) : Prop :=
  k.hwid = none ∨ ∃ l : List String, k.hwid = some (stringifyArr l)

/-! ## Theorems -/

/-- Claim C2: for every banned key, `validate_key` answers `keyBanned` for
every HWID, every system info and every current time — expired or not,
whatever HWIDs are bound — and leaves the row unchanged; in particular the
ban check precedes the expiration, repeat-HWID and device-limit checks. -/
theorem validate_banned_always_keyBanned (k : KeyRow) (now : Int) (hw : String)
    (sys : Option String) (h : k.banned = true) :
    validateKey now hw sys k = (.keyBanned, k) := by
  simp [validateKey, h]

theorem validate_banned_always_keyBanned_witness :
    validateKey 0 "H1" none (banKeyRow (freshKeyRow 10 1)) =
      (.keyBanned, banKeyRow (freshKeyRow 10 1)) :=
  validate_banned_always_keyBanned (banKeyRow (freshKeyRow 10 1)) 0 "H1" none rfl

/-- Claim C4: `first_used` is written exactly once per lifetime-segment.
First conjunct: once it holds a timestamp, no validate call — in
particular no later successful one — changes it.  Second conjunct: when it
is unset, an accepting validation that binds a new HWID stamps it with the
current time (the `COALESCE` of line 358).  Third conjunct: no other value
is ever written — starting unset, any validate call leaves it either
stamped with the current time or still unset. -/
theorem validate_firstUsed_write_once (k : KeyRow) (now : Int) (hw : String)
    (sys : Option String) :
    (∀ t, k.first_used = some t → ((validateKey now hw sys k).2).first_used = some t) ∧
    (k.banned = false → ¬ now > k.expires_at → hw ∉ k.hwid.getD [] →
      ((k.hwid.getD []).length : Int) <
        (if k.device_limit = 0 then 1 else k.device_limit) →
      k.first_used = none →
      ((validateKey now hw sys k).2).first_used = some now) ∧
    (k.first_used = none →
      ((validateKey now hw sys k).2).first_used = some now ∨
      ((validateKey now hw sys k).2).first_used = none) := by
  refine ⟨?_, ?_, ?_⟩
  · intro t ht
    simp only [validateKey]
    split_ifs <;> simp [ht]
  · intro hban hexp hnew hroom h0
    have hlt : ¬ ((if k.device_limit = 0 then (1 : Int) else k.device_limit) ≤
        ((k.hwid.getD []).length : Int)) := not_le.mpr hroom
    simp [validateKey, hban, hexp, hnew, hlt, h0]
  · intro h0
    simp only [validateKey]
    split_ifs <;> simp [h0]

theorem validate_firstUsed_write_once_witness :
    ((validateKey 5 "H2" none ⟨false, 100, some ["H1"], true, 2, none, some 3⟩).2).first_used
      = some 3 ∧
    ((validateKey 5 "H2" none ⟨false, 100, some ["H1"], true, 2, none, none⟩).2).first_used
      = some 5 :=
  ⟨(validate_firstUsed_write_once ⟨false, 100, some ["H1"], true, 2, none, some 3⟩
      5 "H2" none).1 3 rfl,
   (validate_firstUsed_write_once ⟨false, 100, some ["H1"], true, 2, none, none⟩
      5 "H2" none).2.1 rfl (by decide) (by decide) (by decide) rfl⟩

/-- Claim C5: the permission resolver evaluates three rules in order with
first match winning: the super-admin id gets `⟨true, true⟩`; otherwise a
member of the support set gets `⟨true, false⟩` whatever the API key is;
otherwise permission holds iff some application row has the given API key
and is owned by the user, with `isAdmin = false`. -/
theorem checkAppPermission_three_tiers (supports : List String)
    (apps : List Application) (uid api : String) :
    (uid = MAIN_ADMIN_ID → checkAppPermission supports apps uid api = ⟨true, true⟩) ∧
    (uid ≠ MAIN_ADMIN_ID → uid ∈ supports →
      checkAppPermission supports apps uid api = ⟨true, false⟩) ∧
    (uid ≠ MAIN_ADMIN_ID → uid ∉ supports →
      ((checkAppPermission supports apps uid api).hasPermission = true ↔
        ∃ a ∈ apps, a.api_key = api ∧ a.created_by = uid) ∧
      (checkAppPermission supports apps uid api).isAdmin = false) := by
  refine ⟨?_, ?_, ?_⟩
  · intro h
    simp [checkAppPermission, checkIfAdmin, h]
  · intro h hs
    simp [checkAppPermission, checkIfAdmin, h, hs]
  · intro h hs
    simp [checkAppPermission, checkIfAdmin, h, hs, List.any_eq_true]

theorem checkAppPermission_three_tiers_witness :
    checkAppPermission ["sup1"] [] "sup1" "k" = ⟨true, false⟩ :=
  (checkAppPermission_three_tiers ["sup1"] [] "sup1" "k").2.1 (by decide) (by simp)

/-- Claim C6: a `delete_support` request targeting the super-admin id
always fails and never changes the supports table, whoever the requester
is; consequently, along any sequence of support operations the super-admin
id stays in the support set once present (it is seeded at bootstrap). -/
theorem main_admin_never_removed :
    (∀ (s : List String) (adm : String),
      (delete_support s MAIN_ADMIN_ID adm).2 = s ∧
      (delete_support s MAIN_ADMIN_ID adm).1 ≠ SupportDelResult.deleted) ∧
    (∀ (ops : List SupportOp) (s : List String), MAIN_ADMIN_ID ∈ s →
      MAIN_ADMIN_ID ∈ ops.foldl supportsStep s) := by
  constructor
  · intro s adm
    unfold delete_support
    split_ifs <;> simp_all
  · intro ops
    induction ops with
    | nil => intro s hs; simpa using hs
    | cons op rest ih =>
      intro s hs
      simp only [List.foldl_cons]
      apply ih
      cases op with
      | add uid adm =>
        simp only [supportsStep, add_support]
        split_ifs <;> simp [hs]
      | del uid adm =>
        simp only [supportsStep, delete_support]
        split_ifs with h1 h2 h3 <;>
          simp_all [List.mem_filter]
        exact fun h => h2 h.symm

theorem main_admin_never_removed_witness :
    MAIN_ADMIN_ID ∈
      ([SupportOp.del MAIN_ADMIN_ID MAIN_ADMIN_ID].foldl supportsStep [MAIN_ADMIN_ID]) :=
  main_admin_never_removed.2 [SupportOp.del MAIN_ADMIN_ID MAIN_ADMIN_ID]
    [MAIN_ADMIN_ID] (by simp)

/-- Claim C7 counterexample: a `create_key` request with `device_limit = -5`
stores `-5`, not `1`.  In JavaScript `parseInt('-5') = -5` is truthy, so
`parseInt(device_limit) || 1` keeps the negative value. -/
theorem createKey_negative_limit_counterexample :
    (createKeyRow 100 (some (-5))).device_limit = -5 ∧
    ¬ (createKeyRow 100 (some (-5))).device_limit = 1 := by
  decide

/-- Claim C7 (amended): the stored device limit is `1` when the
`device_limit` field is absent or unparseable (`parseInt` gives `NaN`) or
parses to `0`; every other parsed integer, negative values included, is
stored unchanged. -/
theorem createKey_device_limit_default (e : Int) :
    (createKeyRow e none).device_limit = 1 ∧
    (createKeyRow e (some 0)).device_limit = 1 ∧
    ∀ n : Int, n ≠ 0 → (createKeyRow e (some n)).device_limit = n := by
  refine ⟨rfl, rfl, ?_⟩
  intro n hn
  simp [createKeyRow, freshKeyRow, parseIntOr1, hn]

theorem createKey_device_limit_default_witness :
    (createKeyRow 100 (some 7)).device_limit = 7 :=
  (createKey_device_limit_default 100).2.2 7 (by decide)

/-- Claim C1: for a non-banned, non-expired key whose device limit is
`n ≥ 1` and whose bound set already holds `n` distinct HWIDs, validating a
fresh HWID is rejected with `deviceLimitReached` and mutates nothing, while
validating any already-bound HWID is accepted and leaves the row (hwid
set, used, system_info, first_used) unchanged. -/
theorem validate_device_limit_boundary (k : KeyRow) (n : Int) (hws : List String)
    (now : Int) (hw : String) (sys : Option String)
    (hban : k.banned = false) (hexp : ¬ now > k.expires_at)
    (hlim : k.device_limit = n) (hn : 1 ≤ n)
    (hbound : k.hwid = some hws) (_hnodup : hws.Nodup)
    (hlen : (hws.length : Int) = n) :
    (hw ∉ hws → validateKey now hw sys k = (.deviceLimitReached, k)) ∧
    (hw ∈ hws → validateKey now hw sys k = (.valid, k)) := by
  have hnz : ¬ k.device_limit = 0 := by rw [hlim]; omega
  constructor
  · intro hnotin
    simp [validateKey, hban, hexp, hbound, hnotin, hnz, hlim, hlen]
    split_ifs with h <;> omega
  · intro hin
    simp [validateKey, hban, hexp, hbound, hin]

theorem validate_device_limit_boundary_witness :
    (validateKey 0 "H3" none ⟨false, 100, some ["H1", "H2"], true, 2, none, some 1⟩ =
      (.deviceLimitReached, ⟨false, 100, some ["H1", "H2"], true, 2, none, some 1⟩)) ∧
    (validateKey 0 "H1" none ⟨false, 100, some ["H1", "H2"], true, 2, none, some 1⟩ =
      (.valid, ⟨false, 100, some ["H1", "H2"], true, 2, none, some 1⟩)) :=
  ⟨(validate_device_limit_boundary ⟨false, 100, some ["H1", "H2"], true, 2, none, some 1⟩
      2 ["H1", "H2"] 0 "H3" none rfl (by decide) rfl (by decide) rfl (by decide) rfl).1
      (by decide),
   (validate_device_limit_boundary ⟨false, 100, some ["H1", "H2"], true, 2, none, some 1⟩
      2 ["H1", "H2"] 0 "H1" none rfl (by decide) rfl (by decide) rfl (by decide) rfl).2
      (by decide)⟩

/-- Claim C3 counterexample: `reset_hwid` does not clear the `banned` flag,
so for a banned key, reset followed by validate answers `keyBanned`, while
a freshly created key with the same expiration and device limit validates
successfully — the claim fails for banned keys. -/
theorem reset_then_validate_counterexample :
    validateKey 0 "B" none (resetHwidRow ⟨true, 100, some ["A"], true, 1, some "si", some 3⟩) ≠
      validateKey 0 "B" none (freshKeyRow 100 1) ∧
    (validateKey 0 "B" none
      (resetHwidRow ⟨true, 100, some ["A"], true, 1, some "si", some 3⟩)).1 =
      VResult.keyBanned ∧
    (validateKey 0 "B" none (freshKeyRow 100 1)).1 = VResult.valid := by
  decide

/-- Claim C3 (amended): for every key that is not banned, `reset_hwid`
followed by `validate_key` — with any HWID, system info and time — gives
the same decision and the same resulting row as validating a freshly
created, never-validated key with the same expiration and device limit;
for banned keys the reset key still answers `keyBanned`. -/
theorem reset_then_validate_amended (k : KeyRow) (hban : k.banned = false)
    (now : Int) (hw : String) (sys : Option String) :
    validateKey now hw sys (resetHwidRow k) =
      validateKey now hw sys (freshKeyRow k.expires_at k.device_limit) := by
  have h : resetHwidRow k = freshKeyRow k.expires_at k.device_limit := by
    cases k
    simp_all [resetHwidRow, freshKeyRow]
  rw [h]

theorem reset_then_validate_amended_witness :
    validateKey 0 "B" none
      (resetHwidRow ⟨false, 100, some ["A"], true, 1, some "si", some 3⟩) =
      validateKey 0 "B" none (freshKeyRow 100 1) :=
  reset_then_validate_amended ⟨false, 100, some ["A"], true, 1, some "si", some 3⟩
    rfl 0 "B" none

/-- Claim C8 counterexample: the `UPDATE` of `validate_key` writes
`system_info = $2` with `$2 = system_info || null`, so an accepting
validation that binds a new HWID with the `system_info` field absent
clears a previously stored system-info to `NULL` instead of leaving it
unchanged. -/
theorem validate_systemInfo_counterexample :
    ((validateKey 0 "H1" none ⟨false, 100, none, false, 1, some "old", none⟩).1 =
      VResult.valid) ∧
    ((validateKey 0 "H1" none ⟨false, 100, none, false, 1, some "old", none⟩).2).system_info
      = none ∧
    ¬ ((validateKey 0 "H1" none ⟨false, 100, none, false, 1, some "old", none⟩).2).system_info
      = some "old" := by
  decide

/-- Claim C8 (amended): on an accepting validation that binds a new HWID,
the stored system-info is overwritten with the request's
`system_info || null` value: it becomes the provided value when present,
and `NULL` when absent — a previously stored value is not preserved. -/
theorem validate_systemInfo_overwritten (k : KeyRow) (now : Int) (hw : String)
    (sys : Option String) (hban : k.banned = false) (hexp : ¬ now > k.expires_at)
    (hnew : hw ∉ k.hwid.getD [])
    (hroom : ((k.hwid.getD []).length : Int) <
      (if k.device_limit = 0 then 1 else k.device_limit)) :
    ((validateKey now hw sys k).1 = VResult.valid) ∧
    ((validateKey now hw sys k).2).system_info = sys := by
  have hlt : ¬ ((if k.device_limit = 0 then (1 : Int) else k.device_limit) ≤
      ((k.hwid.getD []).length : Int)) := not_le.mpr hroom
  simp [validateKey, hban, hexp, hnew, hlt]

theorem validate_systemInfo_overwritten_witness :
    ((validateKey 0 "H1" none ⟨false, 100, none, false, 1, some "old", none⟩).2).system_info
      = none :=
  (validate_systemInfo_overwritten ⟨false, 100, none, false, 1, some "old", none⟩
    0 "H1" none rfl (by decide) (by decide) (by decide)).2

/-- The stored device limit is never `0`. -/
theorem parseIntOr1_ne_zero (v : Option Int) : parseIntOr1 v ≠ 0 := by
  cases v with
  | none => simp [parseIntOr1]
  | some n =>
    simp only [parseIntOr1]
    split_ifs with h <;> omega

/-- Every key operation preserves the key-row invariant. -/
theorem keyStep_inv (k : KeyRow) (op : KeyOp) (h : KeyRowInv k) :
    KeyRowInv (keyStep k op) := by
  obtain ⟨hnz, hle⟩ := h
  cases op with
  | ban =>
    exact ⟨hnz, by simpa [keyStep, banKeyRow, hwidCount] using hle⟩
  | reset =>
    refine ⟨hnz, ?_⟩
    simp [keyStep, resetHwidRow, hwidCount]
  | validate now hw sys =>
    simp only [keyStep, validateKey]
    rw [if_neg hnz]
    split_ifs with h1 h2 h3 h4
    · exact ⟨hnz, hle⟩
    · exact ⟨hnz, hle⟩
    · exact ⟨hnz, hle⟩
    · exact ⟨hnz, hle⟩
    · refine ⟨hnz, ?_⟩
      simp only [hwidCount, Option.getD_some] at *
      push_neg at h4
      simp only [List.length_append, List.length_cons, List.length_nil]
      push_cast
      omega

theorem keyStep_inv_witness : KeyRowInv (keyStep (freshKeyRow 10 1) KeyOp.ban) :=
  keyStep_inv (freshKeyRow 10 1) KeyOp.ban ⟨by decide, by decide⟩

/-- Claim C9 counterexample: `create_key` does not clamp negative device
limits, so the key created with `device_limit = -5` already violates the
claimed invariant: its bound-HWID set has size `0`, which exceeds `-5`. -/
theorem hwid_limit_invariant_counterexample :
    ¬ ((hwidCount (createKeyRow 100 (some (-5))) : Int) ≤
      (createKeyRow 100 (some (-5))).device_limit) := by
  decide

/-- Claim C9 (amended): along every sequence of key operations starting
from a freshly created key, the number of bound HWIDs never exceeds
`max device_limit 0`: it never exceeds the stored device limit whenever
that limit is positive, and stays `0` when the limit is negative (negative
limits are storable because creation does not clamp them). -/
theorem hwid_count_le_device_limit (e : Int) (dl : Option Int) (ops : List KeyOp) :
    (hwidCount (ops.foldl keyStep (createKeyRow e dl)) : Int) ≤
      max (ops.foldl keyStep (createKeyRow e dl)).device_limit 0 := by
  have h0 : KeyRowInv (createKeyRow e dl) := by
    refine ⟨parseIntOr1_ne_zero dl, ?_⟩
    simp [createKeyRow, freshKeyRow, hwidCount]
  have hfold : ∀ (l : List KeyOp) (k : KeyRow), KeyRowInv k → KeyRowInv (l.foldl keyStep k) := by
    intro l
    induction l with
    | nil => intro k hk; simpa using hk
    | cons op rest ih =>
      intro k hk
      simpa using ih _ (keyStep_inv k op hk)
  exact (hfold ops _ h0).2

/-- A string is its character list. -/
theorem stringMk_data (s : String) : String.mk s.data = s := by
  cases s
  rfl

/-- Decoding a serialized hexadecimal digit gives the digit back. -/
theorem hexVal_hexDigit : ∀ n < 16, hexVal (hexDigit n) = some n := by
  decide

/-- Decoding the `00xy` escape body of a control character. -/
theorem decodeHex4_control (t : Nat) (h : t < 32) :
    decodeHex4 '0' '0' (hexDigit (t / 16)) (hexDigit (t % 16)) = some t := by
  have hd1 : hexVal (hexDigit (t / 16)) = some (t / 16) :=
    hexVal_hexDigit _ (by omega)
  have hd2 : hexVal (hexDigit (t % 16)) = some (t % 16) :=
    hexVal_hexDigit _ (by omega)
  have hz : hexVal '0' = some 0 := by decide
  simp only [decodeHex4, hd1, hd2, hz]
  congr 1
  omega

/-- Unfolding of the parser on a plain (unescaped) character. -/
theorem parseJStr_cons_plain (c : Char) (rest : List Char)
    (h1 : ¬ c = '"') (h2 : ¬ c = '\\') :
    parseJStr (c :: rest) = (parseJStr rest).map fun p => (c :: p.1, p.2) := by
  rw [parseJStr.eq_def]
  simp [h1, h2]

/-- Unfolding of the parser on a four-digit hexadecimal escape. -/
theorem parseJStr_u (h1 h2 h3 h4 : Char) (rest : List Char) :
    parseJStr ('\\' :: 'u' :: h1 :: h2 :: h3 :: h4 :: rest) =
      match decodeHex4 h1 h2 h3 h4 with
      | some n =>
        if n < 55296 then (parseJStr rest).map fun p => (Char.ofNat n :: p.1, p.2)
        else none
      | none => none :=
  rfl

/-- Parsing one escaped character consumes exactly its escape sequence. -/
theorem parseJStr_escChar (c : Char) (tail : List Char) :
    parseJStr (escChar c ++ tail) = (parseJStr tail).map fun p => (c :: p.1, p.2) := by
  by_cases h1 : c = '"'
  · subst h1
    have e : escChar '"' = ['\\', '"'] := by decide
    rw [e]
    rw [parseJStr.eq_def]
    simp
  by_cases h2 : c = '\\'
  · subst h2
    have e : escChar '\\' = ['\\', '\\'] := by decide
    rw [e]
    rw [parseJStr.eq_def]
    simp
  by_cases h3 : c = '\x08'
  · subst h3
    have e : escChar '\x08' = ['\\', 'b'] := by decide
    rw [e]
    rw [parseJStr.eq_def]
    simp
  by_cases h4 : c = '\t'
  · subst h4
    have e : escChar '\t' = ['\\', 't'] := by decide
    rw [e]
    rw [parseJStr.eq_def]
    simp
  by_cases h5 : c = '\n'
  · subst h5
    have e : escChar '\n' = ['\\', 'n'] := by decide
    rw [e]
    rw [parseJStr.eq_def]
    simp
  by_cases h6 : c = '\x0c'
  · subst h6
    have e : escChar '\x0c' = ['\\', 'f'] := by decide
    rw [e]
    rw [parseJStr.eq_def]
    simp
  by_cases h7 : c = '\r'
  · subst h7
    have e : escChar '\r' = ['\\', 'r'] := by decide
    rw [e]
    rw [parseJStr.eq_def]
    simp
  by_cases h8 : c.toNat < 32
  · have e : escChar c =
        ['\\', 'u', '0', '0', hexDigit (c.toNat / 16), hexDigit (c.toNat % 16)] := by
      simp [escChar, h1, h2, h3, h4, h5, h6, h7, h8]
    have hlt : c.toNat < 55296 := by omega
    rw [e]
    simp only [List.cons_append, List.nil_append]
    rw [parseJStr_u, decodeHex4_control c.toNat h8]
    simp [hlt, Char.ofNat_toNat]
  · have e : escChar c = [c] := by
      simp [escChar, h1, h2, h3, h4, h5, h6, h7, h8]
    rw [e]
    simp only [List.singleton_append]
    exact parseJStr_cons_plain c tail h1 h2

/-- Parsing the escaped body of a string literal up to its closing quote
recovers the original characters. -/
theorem parseJStr_escList (cs : List Char) (rest : List Char) :
    parseJStr (escList cs ++ '"' :: rest) = some (cs, rest) := by
  induction cs with
  | nil =>
    simp only [escList, List.nil_append]
    rw [parseJStr.eq_def]
    simp
  | cons c cs ih =>
    rw [escList, List.append_assoc, parseJStr_escChar, ih]
    rfl

/-- The serialized body of a nonempty array starts with a quote. -/
theorem stringifyItems_cons_head (s : String) (l : List String) :
    ∃ z, stringifyItems (s :: l) = '"' :: z := by
  cases l with
  | nil => exact ⟨_, rfl⟩
  | cons t l2 => exact ⟨_, rfl⟩

/-- Each serialized item takes at least one character. -/
theorem length_le_stringifyItems (l : List String) :
    l.length ≤ (stringifyItems l).length := by
  induction l with
  | nil => simp [stringifyItems]
  | cons s l ih =>
    cases l with
    | nil =>
      simp [stringifyItems, quoteString]
    | cons t l2 =>
      simp only [stringifyItems, quoteString, List.length_append, List.length_cons] at *
      omega

/-- Parsing the serialized items of a nonempty array up to the closing
bracket recovers the array, given fuel at least the number of items. -/
theorem parseItems_stringifyItems (l : List String) (fuel : Nat) (r : List Char)
    (hfuel : l.length ≤ fuel) (hne : l ≠ []) :
    parseItems fuel (stringifyItems l ++ ']' :: r) = some (l, r) := by
  induction l generalizing fuel r with
  | nil => exact absurd rfl hne
  | cons s l ih =>
    obtain ⟨f, rfl⟩ : ∃ f, fuel = f + 1 := by
      refine ⟨fuel - 1, ?_⟩
      simp only [List.length_cons] at hfuel
      omega
    cases l with
    | nil =>
      have harr : stringifyItems [s] ++ ']' :: r =
          '"' :: (escList s.data ++ '"' :: (']' :: r)) := by
        simp [stringifyItems, quoteString]

      rw [harr, parseItems.eq_def]
      simp [parseJStr_escList, stringMk_data]
    | cons t l2 =>
      have harr : stringifyItems (s :: t :: l2) ++ ']' :: r =
          '"' :: (escList s.data ++ '"' ::
            (',' :: (stringifyItems (t :: l2) ++ ']' :: r))) := by
        simp [stringifyItems, quoteString]
      have hih : parseItems f (stringifyItems (t :: l2) ++ ']' :: r) =
          some (t :: l2, r) := by
        refine ih f r ?_ (by simp)
        simp only [List.length_cons] at hfuel ⊢
        omega
      rw [harr, parseItems.eq_def]
      simp [parseJStr_escList, stringMk_data, hih]

/-- Round trip: parsing a serialized array of strings gives the array
back — the model of `JSON.parse` never fails on the model of
`JSON.stringify` output. -/
theorem parseArr_stringifyArr (l : List String) :
    parseArr (stringifyArr l) = some l := by
  cases l with
  | nil => decide
  | cons s l2 =>
    obtain ⟨z, hz⟩ := stringifyItems_cons_head s l2
    have hne : stringifyItems (s :: l2) ++ [']'] ≠ [']'] := by
      rw [hz]
      simp
    have hfuel : (s :: l2).length ≤ (stringifyItems (s :: l2) ++ [']']).length := by
      have h := length_le_stringifyItems (s :: l2)
      simp only [List.length_append, List.length_cons, List.length_nil] at h ⊢
      omega
    have hp : parseItems (stringifyItems (s :: l2) ++ [']']).length
        (stringifyItems (s :: l2) ++ ']' :: []) = some (s :: l2, []) :=
      parseItems_stringifyItems (s :: l2) _ [] hfuel (by simp)
    simp only [parseArr, stringifyArr]
    unfold parseArrAux
    rw [if_neg hne, hp]
    simp

/-- Reading a well-formed hwid column never raises. -/
theorem readHwids_wf (col : Option String)
    (h : col = none ∨ ∃ l : List String, col = some (stringifyArr l)) :
    readHwids col ≠ none := by
  rcases h with h | ⟨l, h⟩
  · subst h
    simp [readHwids]
  · subst h
    simp only [readHwids]
    split_ifs with hc
    · simp
    · simp [parseArr_stringifyArr]

/-- The only write `validate_key` performs on the hwid column is a
`JSON.stringify` image. -/
theorem validateKeyS_hwid (now : Int) (hw : String) (sys : Option String)
    (k : KeyRowS) (r : VResult) (k2 : KeyRowS)
    (h : validateKeyS now hw sys k = some (r, k2)) :
    k2.hwid = k.hwid ∨ ∃ l : List String, k2.hwid = some (stringifyArr l) := by
  simp only [validateKeyS] at h
  repeat' split at h
  all_goals first
    | exact Option.noConfusion h
    | (simp only [Option.some.injEq, Prod.mk.injEq] at h
       first
         | (left; rw [← h.2]; done)
         | (right; exact ⟨_, by rw [← h.2]⟩))

/-- Every key operation preserves well-formedness of the hwid column. -/
theorem keyStepS_wf (k : KeyRowS) (op : KeyOp) (h : HwidColWF k) :
    HwidColWF (keyStepS k op) := by
  cases op with
  | ban => simpa [keyStepS, banKeyRowS, HwidColWF] using h
  | reset => exact Or.inl rfl
  | validate now hw sys =>
    simp only [keyStepS]
    cases hres : validateKeyS now hw sys k with
    | none => exact h
    | some p =>
      obtain ⟨r, k2⟩ := p
      rcases validateKeyS_hwid now hw sys k r k2 hres with hsame | hnew
      · rcases h with h | ⟨l, h⟩
        · exact Or.inl (by rw [hsame, h])
        · exact Or.inr ⟨l, by rw [hsame, h]⟩
      · exact Or.inr hnew

theorem keyStepS_wf_witness : HwidColWF (keyStepS (freshKeyRowS 10 1) KeyOp.ban) :=
  keyStepS_wf (freshKeyRowS 10 1) KeyOp.ban (Or.inl rfl)

/-- Claim C10: along every operation sequence from creation, the raw
`hwid` column is SQL `NULL` or the `JSON.stringify` image of an array of
strings — it is written only by `JSON.stringify` on validation and set to
`NULL` on reset and creation — and consequently the `JSON.parse` in the
validate path never fails on a reachable row: the validator never takes
its exception outcome. -/
theorem hwid_column_wellformed (e : Int) (dl : Option Int) (ops : List KeyOp)
    (now : Int) (hw : String) (sys : Option String) :
    HwidColWF (ops.foldl keyStepS (createKeyRowS e dl)) ∧
    validateKeyS now hw sys (ops.foldl keyStepS (createKeyRowS e dl)) ≠ none := by
  have h0 : HwidColWF (createKeyRowS e dl) := Or.inl rfl
  have hfold : ∀ (l : List KeyOp) (k : KeyRowS),
      HwidColWF k → HwidColWF (l.foldl keyStepS k) := by
    intro l
    induction l with
    | nil => intro k hk; simpa using hk
    | cons op rest ih =>
      intro k hk
      simpa using ih _ (keyStepS_wf k op hk)
  have hwf := hfold ops _ h0
  refine ⟨hwf, ?_⟩
  have hr := readHwids_wf _ hwf
  simp only [validateKeyS]
  cases hrr : readHwids (ops.foldl keyStepS (createKeyRowS e dl)).hwid with
  | none => exact absurd hrr hr
  | some hwids =>
    simp only [hrr]
    split_ifs <;> simp

end KeyAuth
